import Mathlib

/-!
Verification of the entropy routines of `Ch17.ipynb` ("Data Science from
Scratch", chapter 17 notes) against their natural-language specification.

The notebook runs on a Python 2 kernel (`python2`, 2.7.11) and never imports
`from __future__ import division`, so `/` on two ints is floor division.
The embedding below models the four functions of the notebook —
`entropy`, `class_probabilities`, `data_entropy`, `partition_entropy` —
as they are written, including two slips of the source:

* inside `entropy`, the generator expression iterates over the global name
  `class_probabilitiers` (a misspelling of the parameter) which no cell of
  the notebook ever defines, so every call of `entropy` raises `NameError`
  before any arithmetic runs;
* `count / total_count` in `class_probabilities` is Python 2 integer floor
  division.

Python numbers are modelled by `PyNum` (int or float).  Floats are carried
as rationals: every float literal appearing in the notebook is rational and
no float arithmetic ever completes (`entropy` raises first), so no rounding
is ever observable.  Fallible Python expressions return `Except PyErr`.

Definitions whose name ends in `Spec` are modelled from the spec's words
(true-division proportions, sum of `-p * log2 p` over nonzero entries) and
are used to state what the specified computation yields where the code
deviates.
-/

/-- Errors the modelled Python code can raise. -/
inductive PyErr where
  | nameError
  | zeroDivisionError
deriving DecidableEq

/-- A Python 2 number: an `int` or a `float`.  Floats are represented by
rationals; see the header comment. -/
inductive PyNum where
  | int : ℤ → PyNum
  | float : ℚ → PyNum
deriving DecidableEq

/-- Numeric value of a `PyNum`. -/
def PyNum.toRat : PyNum → ℚ
  | .int n => (n : ℚ)
  | .float x => x

/-- Python 2 `*`: int times int is an int, otherwise a float. -/
def PyNum.mul : PyNum → PyNum → PyNum
  | .int a, .int b => .int (a * b)
  | a, b => .float (a.toRat * b.toRat)

/-- Python 2 `+` (as used by `sum`): int plus int is an int, otherwise a
float. -/
def PyNum.add : PyNum → PyNum → PyNum
  | .int a, .int b => .int (a + b)
  | a, b => .float (a.toRat + b.toRat)

/-- Python 2 `/`: floor division on two ints, true division otherwise;
a zero divisor raises `ZeroDivisionError`. -/
def PyNum.div : PyNum → PyNum → Except PyErr PyNum
  | .int a, .int b =>
      if b = 0 then .error .zeroDivisionError else .ok (.int (Int.fdiv a b))
  | a, b =>
      if b.toRat = 0 then .error .zeroDivisionError
      else .ok (.float (a.toRat / b.toRat))

/-- Sequential evaluation of a Python list comprehension (or of the stream
of terms consumed by `sum`): elements are produced left to right and the
first error aborts the whole computation. -/
def exceptMap {A B : Type} (f : A → Except PyErr B) : List A → Except PyErr (List B)
  | [] => Except.ok []
  | a :: as => do
    let b ← f a
    let bs ← exceptMap f as
    pure (b :: bs)

/-- `Counter(labels).values()`: the occurrence count of each distinct label.
Python 2 dict order is unspecified; we fix the `dedup` order.  No claim
observes the order (only the multiset of counts matters). -/
def counterValues {α : Type} [DecidableEq α] (labels : List α) : List ℤ :=
  labels.dedup.map (fun a => (labels.count a : ℤ))

/-- The notebook's `entropy(class_probabilities)`.  As written, its
generator expression iterates over the global name `class_probabilitiers` —
a misspelling of the parameter that no cell of the notebook ever assigns —
so every call raises `NameError` when the generator expression is created,
before any probability is read: the parameter itself is never consulted. -/
def entropy ( _probs : List PyNum) : Except PyErr PyNum :=
  Except.error PyErr.nameError

/-- The notebook's `class_probabilities(labels)`: each distinct label's
count divided by `total_count = len(labels)` with the Python 2 `/`
(floor division on ints).  When `labels` is empty, `Counter(labels)` has no
values, so no division is evaluated and the empty list is returned. -/
def class_probabilities {α : Type} [DecidableEq α] (labels : List α) :
    Except PyErr (List PyNum) :=
  exceptMap (fun count => PyNum.div (PyNum.int count) (PyNum.int labels.length))
    (counterValues labels)

/-- The notebook's `data_entropy(labeled_data)`: extract the labels (second
component of each pair), form their class probabilities, and feed them to
`entropy`.  The attribute component is never inspected, hence the generic
type `β`. -/
def data_entropy {β γ : Type} [DecidableEq γ] (labeled_data : List (β × γ)) :
    Except PyErr PyNum := do
  let labels := labeled_data.map Prod.snd
  let probabilities ← class_probabilities labels
  entropy probabilities

/-- The notebook's `partition_entropy(subsets)`:
`total_count = sum(len(subset) for subset in subsets)` and then
`sum(data_entropy(subset) * len(subset) / total_count for subset in subsets)`.
There is no special case for empty subsets: `data_entropy` is applied to
every subset, then the product and the Python 2 division.  The running
`sum` starts from the int `0`, so an empty subsets list yields `int 0`
without evaluating any division. -/
def partition_entropy {β γ : Type} [DecidableEq γ]
    (subsets : List (List (β × γ))) : Except PyErr PyNum := do
  let total_count : ℤ := (subsets.map (fun subset => (subset.length : ℤ))).sum
  let terms ← exceptMap (fun subset => do
      let e ← data_entropy subset
      PyNum.div (PyNum.mul e (PyNum.int subset.length)) (PyNum.int total_count))
    subsets
  pure (terms.foldl PyNum.add (PyNum.int 0))

/-- Modelled from the spec: `class_probabilities` as the spec describes it —
for each distinct label the count of occurrences divided, with true
division, by the total number of labels. -/
def class_probabilitiesSpec {α : Type} [DecidableEq α] (labels : List α) :
    List ℚ :=
  (counterValues labels).map (fun (count : ℤ) => (count : ℚ) / labels.length)

open Classical in
/-- Modelled from the spec: `entropy` as the spec describes it — the sum
over all nonzero entries `p` of `-p * log2 p`, a zero entry being skipped
(contributing `0`). -/
noncomputable def entropySpec (ps : List ℝ) : ℝ :=
  (ps.map (fun p => if p = 0 then 0 else -(p * Real.logb 2 p))).sum

/-- Modelled from the spec: `data_entropy` as the spec describes it. -/
noncomputable def data_entropySpec {β γ : Type} [DecidableEq γ]
    (labeled_data : List (β × γ)) : ℝ :=
  entropySpec ((class_probabilitiesSpec (labeled_data.map Prod.snd)).map
    (fun (q : ℚ) => (q : ℝ)))

/-- Modelled from the spec: `partition_entropy` as the spec describes it —
the weighted average `Σ data_entropy(s) * |s| / total`. -/
noncomputable def partition_entropySpec {β γ : Type} [DecidableEq γ]
    (subsets : List (List (β × γ))) : ℝ :=
  (subsets.map (fun s => data_entropySpec s * s.length /
    ((subsets.map (fun t => (t.length : ℝ))).sum))).sum

/-! Helper lemmas about the embedded code. -/

theorem ok_bind {A B : Type} (b : A) (k : A → Except PyErr B) :
    (Except.ok b >>= k) = k b := rfl

theorem error_bind {A B : Type} (e : PyErr) (k : A → Except PyErr B) :
    ((Except.error e : Except PyErr A) >>= k) = Except.error e := rfl

theorem exceptMap_ok {A B : Type} (f : A → Except PyErr B) (g : A → B)
    (l : List A) (h : ∀ a ∈ l, f a = Except.ok (g a)) :
    exceptMap f l = Except.ok (l.map g) := by
  induction l with
  | nil => rfl
  | cons a as ih =>
    have ha := h a (List.mem_cons_self a as)
    have has := ih (fun x hx => h x (List.mem_cons_of_mem a hx))
    simp [exceptMap, ha, has, ok_bind]

/-- `class_probabilities` never raises: the divisor `len(labels)` is zero
only when the list of counter values is empty, and then no division runs.
Its value is the list of floor-divided counts. -/
theorem class_probabilities_eq {α : Type} [DecidableEq α] (labels : List α) :
    class_probabilities labels =
      Except.ok ((counterValues labels).map
        (fun c => PyNum.int (Int.fdiv c labels.length))) := by
  cases labels with
  | nil => rfl
  | cons a l =>
    apply exceptMap_ok
    intro c _
    simp only [PyNum.div, List.length_cons]
    rw [if_neg (by omega)]

/-- Every call of `data_entropy` raises `NameError`: `class_probabilities`
succeeds, and then `entropy` raises. -/
theorem data_entropy_eq_error {β γ : Type} [DecidableEq γ]
    (labeled_data : List (β × γ)) :
    data_entropy labeled_data = Except.error PyErr.nameError := by
  simp [data_entropy, class_probabilities_eq, ok_bind, entropy]

/-- `partition_entropy` on any nonempty list of subsets raises `NameError`:
the first term of the sum already calls `data_entropy`. -/
theorem partition_entropy_cons_eq_error {β γ : Type} [DecidableEq γ]
    (s : List (β × γ)) (rest : List (List (β × γ))) :
    partition_entropy (s :: rest) = Except.error PyErr.nameError := by
  simp [partition_entropy, exceptMap, data_entropy_eq_error, error_bind]

/-- `partition_entropySpec` is invariant under permutation of the subsets:
the total count is a permutation-invariant sum, and so is the weighted sum
of the subset entropies. -/
theorem partition_entropySpec_perm {β γ : Type} [DecidableEq γ]
    {l l' : List (List (β × γ))} (h : l.Perm l') :
    partition_entropySpec l = partition_entropySpec l' := by
  unfold partition_entropySpec
  have ht : (l'.map (fun t => (t.length : ℝ))).sum
      = (l.map (fun t => (t.length : ℝ))).sum :=
    ((h.map (fun t => (t.length : ℝ))).sum_eq).symm
  rw [ht]
  exact (h.map _).sum_eq

/-! Theorems settling the claims. -/

/-- Claim C10: `partition_entropy` applied to an empty sequence of subsets
returns the int `0` and raises no error: the sum ranges over no subsets, so
the division by the zero `total_count` is never evaluated. -/
theorem partition_entropy_nil_ok :
    partition_entropy ([] : List (List (String × Bool))) =
      Except.ok (PyNum.int 0) := rfl

/-- Claim C2, counterexample: `class_probabilities` applied to an empty
label sequence does not raise any error, contrary to the claim that it
fails with a division error. -/
theorem class_probabilities_nil_no_error :
    ¬ ∃ e : PyErr, class_probabilities ([] : List Bool) = Except.error e := by
  rintro ⟨e, h⟩
  exact Except.noConfusion h

/-- Claim C2, amended: `class_probabilities` applied to an empty label
sequence returns the empty list normally — `Counter` of an empty sequence
has no values, so the division by the zero total count is never
evaluated. -/
theorem class_probabilities_nil_ok :
    class_probabilities ([] : List Bool) = Except.ok [] := rfl

/-- Sum of a list divided elementwise by a constant. -/
theorem sum_map_div {A : Type} (l : List A) (f : A → ℚ) (c : ℚ) :
    (l.map (fun a => f a / c)).sum = (l.map f).sum / c := by
  induction l with
  | nil => simp
  | cons a as ih => simp [ih, add_div]

/-- Sum of a list of natural numbers cast into `ℚ`. -/
theorem sum_map_natCast {A : Type} (l : List A) (f : A → ℕ) :
    (l.map (fun a => ((f a : ℕ) : ℚ))).sum = (((l.map f).sum : ℕ) : ℚ) := by
  induction l with
  | nil => simp
  | cons a as ih => simp [ih]

/-- `class_probabilitiesSpec` written as one traversal of the distinct
labels. -/
theorem class_probabilitiesSpec_eq {α : Type} [DecidableEq α]
    (labels : List α) :
    class_probabilitiesSpec labels =
      labels.dedup.map
        (fun a => (labels.count a : ℚ) / (labels.length : ℚ)) := by
  unfold class_probabilitiesSpec counterValues
  rw [List.map_map]
  refine List.map_congr_left (fun a _ => ?_)
  simp only [Function.comp_apply, Int.cast_natCast]

/-- Claim C3, counterexample: with the empty subset as the only subset,
`partition_entropy [[]]` raises `NameError` (`data_entropy` IS invoked on
the empty subset, and `entropy` raises), while omitting the empty subset
gives `partition_entropy [] = 0` — so the result is not the one with the
empty subset omitted. -/
theorem partition_entropy_empty_subset_matters :
    partition_entropy [([] : List (String × Bool))] ≠
      partition_entropy ([] : List (List (String × Bool))) := by
  intro h
  rw [partition_entropy_cons_eq_error] at h
  exact Except.noConfusion h

/-- Claim C3, amended: `partition_entropy` invokes `data_entropy` on every
subset, empty ones included; since `entropy` always raises `NameError`, a
nonempty list of subsets always yields `NameError`, and so prepending an
empty subset to a nonempty list of subsets does leave the (error) outcome
unchanged, while `[[]]` and `[]` differ. -/
theorem partition_entropy_cons_empty_subset
    (ss : List (List (String × Bool))) (h : ss ≠ []) :
    partition_entropy (([] : List (String × Bool)) :: ss) =
      partition_entropy ss := by
  cases ss with
  | nil => exact absurd rfl h
  | cons s rest =>
    rw [partition_entropy_cons_eq_error, partition_entropy_cons_eq_error]

/-- Witness for the amended claim C3 at a concrete nonempty subsets list. -/
theorem partition_entropy_cons_empty_subset_witness :
    ([[("x", true)]] : List (List (String × Bool))) ≠ [] ∧
      partition_entropy (([] : List (String × Bool)) :: [[("x", true)]]) =
        partition_entropy [[("x", true)]] :=
  ⟨by simp, partition_entropy_cons_empty_subset _ (by simp)⟩

/-- Claim C1: as the code stands, `entropy` does not compute the
nonnegative sum of `-p * log2 p` over the nonzero entries: every call —
here at the probability vector `[0.5, 0.5]` — raises `NameError` because
the generator expression iterates over the undefined misspelled global
`class_probabilitiers` instead of the parameter.  The specified
computation `entropySpec` is indeed nonnegative on every sequence of
probabilities drawn from `[0, 1]`. -/
theorem entropy_raises_and_spec_nonneg :
    entropy [PyNum.float (1/2), PyNum.float (1/2)] =
        Except.error PyErr.nameError ∧
      ∀ ps : List ℝ, (∀ p ∈ ps, 0 ≤ p ∧ p ≤ 1) → 0 ≤ entropySpec ps := by
  refine ⟨rfl, ?_⟩
  intro ps hps
  apply List.sum_nonneg
  intro x hx
  simp only [List.mem_map] at hx
  obtain ⟨p, hp, rfl⟩ := hx
  by_cases h0 : p = 0
  · simp [h0]
  · rw [if_neg h0]
    have hb := hps p hp
    have hlog : Real.logb 2 p ≤ 0 :=
      Real.logb_nonpos (by norm_num) hb.1 hb.2
    have hmul : 0 ≤ p * -Real.logb 2 p :=
      mul_nonneg hb.1 (neg_nonneg.mpr hlog)
    linarith

/-- Witness for claim C1's nonnegativity part at `[0.5, 0.5]`. -/
theorem entropy_raises_and_spec_nonneg_witness :
    0 ≤ entropySpec [(1 : ℝ)/2, 1/2] :=
  entropy_raises_and_spec_nonneg.2 _ (by norm_num)

/-- Claim C5: as the code stands, `entropy` raises `NameError` even on a
vector with all mass on one entry and a zero entry (the zero is never the
problem: the undefined global is read first).  The specified computation
does skip zero entries: for mass one on a single entry and any number `n`
of zero entries it returns `0`. -/
theorem entropy_zeros_raise_and_spec_zero :
    entropy [PyNum.float 0, PyNum.float 1] = Except.error PyErr.nameError ∧
      ∀ n : ℕ, entropySpec ((1 : ℝ) :: List.replicate n 0) = 0 := by
  refine ⟨rfl, ?_⟩
  intro n
  simp [entropySpec, List.map_replicate, List.sum_replicate, Real.logb_one]

/-- Witness for claim C5's zero-entry part with three zero entries. -/
theorem entropy_zeros_raise_and_spec_zero_witness :
    entropySpec ((1 : ℝ) :: List.replicate 3 0) = 0 :=
  entropy_zeros_raise_and_spec_zero.2 3

/-- Claim C7: as the code stands, `entropy([1.0])` raises `NameError`
instead of returning `0.0`.  The specified computation returns `0` on
`[1.0]` and `1` on `[0.5, 0.5]` as the claim states. -/
theorem entropy_unit_and_half_values :
    entropy [PyNum.float 1] = Except.error PyErr.nameError ∧
      entropySpec [(1 : ℝ)] = 0 ∧ entropySpec [(1 : ℝ)/2, 1/2] = 1 := by
  refine ⟨rfl, by simp [entropySpec, Real.logb_one], ?_⟩
  have h2 : Real.logb 2 ((1 : ℝ)/2) = -1 := by
    rw [one_div, Real.logb_inv, Real.logb_self_eq_one (by norm_num)]
  norm_num [entropySpec, h2]

/-- Claim C4: as the code stands, `partition_entropy` on a single
one-element subset (total count `1 > 0`) raises `NameError` via
`data_entropy` instead of returning the weighted average entropy; the
specified weighted average on that input is `0`. -/
theorem partition_entropy_raises_and_spec_value :
    partition_entropy [[(("x" : String), true)]] =
        Except.error PyErr.nameError ∧
      partition_entropySpec [[(("x" : String), true)]] = 0 := by
  constructor
  · exact partition_entropy_cons_eq_error _ _
  · have hcv : counterValues ([true] : List Bool) = [1] := by decide
    have hcp : class_probabilitiesSpec ([true] : List Bool) = [1] := by
      unfold class_probabilitiesSpec
      rw [hcv]
      norm_num
    simp [partition_entropySpec, data_entropySpec, hcp, entropySpec,
      Real.logb_one]

/-- Claim C6: as the code stands, `partition_entropy` raises `NameError`
on a two-subset input of total count `2 > 0` and on its transposition —
no value is returned at all, so no returned values can be compared.  The
specified weighted average is invariant under the transposition. -/
theorem partition_entropy_perm_raises_and_spec_invariant :
    partition_entropy [[(("x" : String), true)], [("y", false)]] =
        Except.error PyErr.nameError ∧
      partition_entropy [[(("y" : String), false)], [("x", true)]] =
        Except.error PyErr.nameError ∧
      partition_entropySpec [[(("x" : String), true)], [("y", false)]] =
        partition_entropySpec [[(("y" : String), false)], [("x", true)]] :=
  ⟨partition_entropy_cons_eq_error _ _, partition_entropy_cons_eq_error _ _,
    partition_entropySpec_perm (by decide)⟩

/-- Claim C8: in the notebook's Python 2, `count / total_count` is integer
floor division, so `class_probabilities(["a","a","b"])` returns `[0, 0]` —
not proportions summing to `1` with values `{2/3, 1/3}`.  The specified
true-division proportions are `[2/3, 1/3]` and sum to `1`. -/
theorem class_probabilities_aab :
    class_probabilities ["a", "a", "b"] =
        Except.ok [PyNum.int 0, PyNum.int 0] ∧
      class_probabilitiesSpec ["a", "a", "b"] = [2/3, 1/3] ∧
      (class_probabilitiesSpec ["a", "a", "b"]).sum = 1 := by
  have hcv : counterValues (["a", "a", "b"] : List String) = [2, 1] := by
    decide
  have hspec : class_probabilitiesSpec ["a", "a", "b"] = [2/3, 1/3] := by
    unfold class_probabilitiesSpec
    rw [hcv]
    norm_num
  refine ⟨rfl, hspec, ?_⟩
  rw [hspec]
  norm_num

/-- Claim C9: on the nonempty input `["a", "b"]` the code returns `[0, 0]`
(floor division), whose entries are not positive and do not sum to `1`.
The specified proportions do satisfy the claim: one entry per distinct
label, each in `(0, 1]`, summing to `1`, for every nonempty label list. -/
theorem class_probabilities_ab_and_spec_props :
    class_probabilities ["a", "b"] = Except.ok [PyNum.int 0, PyNum.int 0] ∧
      ∀ labels : List String, labels ≠ [] →
        (class_probabilitiesSpec labels).length = labels.dedup.length ∧
        (∀ q ∈ class_probabilitiesSpec labels, 0 < q ∧ q ≤ 1) ∧
        (class_probabilitiesSpec labels).sum = 1 := by
  refine ⟨rfl, ?_⟩
  intro labels hne
  have hlen : 0 < labels.length := List.length_pos.mpr hne
  have hlenQ : (0 : ℚ) < (labels.length : ℚ) := by exact_mod_cast hlen
  refine ⟨?_, ?_, ?_⟩
  · rw [class_probabilitiesSpec_eq]
    simp
  · intro q hq
    rw [class_probabilitiesSpec_eq] at hq
    obtain ⟨a, ha, rfl⟩ := List.mem_map.mp hq
    have hmem : a ∈ labels := List.mem_dedup.mp ha
    have hc : 0 < labels.count a := List.count_pos_iff.mpr hmem
    have hcQ : (0 : ℚ) < (labels.count a : ℚ) := by exact_mod_cast hc
    constructor
    · exact div_pos hcQ hlenQ
    · rw [div_le_one hlenQ]
      exact_mod_cast List.count_le_length a labels
  · rw [class_probabilitiesSpec_eq, sum_map_div]
    have hsum : (labels.dedup.map fun a => ((labels.count a : ℚ))).sum =
        (labels.length : ℚ) := by
      rw [sum_map_natCast labels.dedup (fun a => labels.count a)]
      exact_mod_cast List.sum_map_count_dedup_eq_length labels
    rw [hsum, div_self hlenQ.ne']

/-- Witness for claim C9's specified properties at `["a", "b"]`. -/
theorem class_probabilities_ab_and_spec_props_witness :
    (["a", "b"] : List String) ≠ [] ∧
      (class_probabilitiesSpec ["a", "b"]).sum = 1 :=
  ⟨by simp, (class_probabilities_ab_and_spec_props.2 ["a", "b"] (by simp)).2.2⟩
